import Mathlib

/-!
Verification of the emosaic flag-management backend (aws-backend).

Shallow embedding of the Python sources:
  - `src/aws-backend/lambda/toggle_flag.py`   (flag/unflag handler, rate limiter)
  - `src/aws-backend/lambda/get_flags.py`     (batch flag lookup)
  - `src/aws-backend/lambda/admin_get_all_flags.py` (listing, pagination, summary)
  - `src/aws-backend/tile_manager.py`         (CLI listing, batch delete, review)

The DynamoDB table is modelled as a function from primary key (`tile_hash`)
to an optional stored item; `put_item` / `delete_item` / `get_item` are the
corresponding pointwise updates and lookup, which matches DynamoDB's
single-key semantics (a put overwrites the row with the same key, a delete of
an absent key is a no-op success).
-/

namespace Emosaic

/-- A stored flag row, with the exact attributes written by
`flag_tile` in `toggle_flag.py` (`tile_hash`, `tile_path`, `flag_status`,
`flagged_at`, `flagged_by_ip`, `ttl`). -/
structure FlagRecord where
  tile_hash : String
  tile_path : String
  flag_status : String
  flagged_at : String
  flagged_by_ip : String
  ttl : Int
deriving DecidableEq, Repr

/-- The flags table: each `tile_hash` key holds at most one item. -/
def FlagTable : Type := String → Option FlagRecord

/-- `get_item(Key={'tile_hash': h})`. -/
def getItem (t : FlagTable) (h : String) : Option FlagRecord := t h

/-- `put_item(Item=r)`: overwrites the row whose key equals `r.tile_hash`. -/
def putItem (t : FlagTable) (r : FlagRecord) : FlagTable :=
  fun k => if k = r.tile_hash then some r else t k

/-- `delete_item(Key={'tile_hash': h})`: unconditional delete, a no-op when
the key is absent. -/
def deleteItem (t : FlagTable) (h : String) : FlagTable :=
  fun k => if k = h then none else t k

/-- An HTTP response as the handlers build it: a status code and the JSON
body's string-valued fields (CORS headers are transport scaffolding and
carry no data). -/
structure HttpResponse where
  statusCode : Nat
  body : List (String × String)
deriving DecidableEq, Repr

/-- `unflag_tile` from `toggle_flag.py`: one unconditional `delete_item`,
returning `True`. -/
def unflag_tile (t : FlagTable) (h : String) : FlagTable × Bool :=
  (deleteItem t h, true)

/-- The `DELETE` branch of `toggle_flag.lambda_handler`: calls `unflag_tile`
and answers 200 with a success body without inspecting whether a record
existed. -/
def handleUnflag (t : FlagTable) (h : String) : FlagTable × HttpResponse :=
  let r := unflag_tile t h
  (r.1, ⟨200, [("success", "true"), ("action", "unflagged"), ("tileHash", h)]⟩)

/-- The 500 body built in the `except` branch of
`toggle_flag.lambda_handler`; the exception text `e` goes to `print` (logs)
only. -/
def toggleFlagErrorResponse (_e : String) : HttpResponse :=
  ⟨500, [("error", "Internal server error")]⟩

/-- The 500 body built in the `except Exception` branch of
`get_flags.lambda_handler`; the exception text `e` is only printed. -/
def getFlagsErrorResponse (_e : String) : HttpResponse :=
  ⟨500, [("error", "Internal server error")]⟩

/-- The 500 body built in the `except` branch of
`admin_get_all_flags.lambda_handler`: besides the generic `error` field it
places `str(e)` in the body's `message` field. -/
def adminErrorResponse (e : String) : HttpResponse :=
  ⟨500, [("success", "False"), ("error", "Internal server error"), ("message", e)]⟩

theorem deleteItem_idem (t : FlagTable) (h : String) :
    deleteItem (deleteItem t h) h = deleteItem t h := by
  funext k
  simp only [deleteItem]
  split <;> rfl

/-- C6: the DELETE handler answers 200/success for every table state, the
record for the hash is gone afterwards, and a second remove answers 200 again
and leaves the table unchanged. -/
theorem unflag_idempotent_success (t : FlagTable) (h : String) :
    (handleUnflag t h).2.statusCode = 200 ∧
    ("success", "true") ∈ (handleUnflag t h).2.body ∧
    (handleUnflag t h).1 h = none ∧
    (handleUnflag (handleUnflag t h).1 h).2.statusCode = 200 ∧
    (handleUnflag (handleUnflag t h).1 h).1 h = none ∧
    (handleUnflag (handleUnflag t h).1 h).1 = (handleUnflag t h).1 := by
  refine ⟨rfl, by simp [handleUnflag], ?_, rfl, ?_, ?_⟩
  · simp [handleUnflag, unflag_tile, deleteItem]
  · simp [handleUnflag, unflag_tile, deleteItem]
  · exact deleteItem_idem t h

/-- C4 counterexample: at the concrete internal error text
`"botocore ProvisionedThroughputExceededException"`, the HTTP 500 body of the
admin listing handler contains that internal text verbatim in its `message`
field — the HTTP surface does leak internal store error text. -/
theorem admin_error_leaks_internal_text :
    ("message", "botocore ProvisionedThroughputExceededException") ∈
      (adminErrorResponse "botocore ProvisionedThroughputExceededException").body := by
  simp [adminErrorResponse]

/-- C4 amended: the flag-toggle and batch-get handlers answer unexpected
errors with a body whose every field value is the fixed generic text,
independent of the internal error `e`; the admin listing handler's 500 body,
however, carries `e` itself under `message`. -/
theorem generic_errors_except_admin (e : String) :
    (∀ kv ∈ (toggleFlagErrorResponse e).body, kv.2 = "Internal server error") ∧
    (∀ kv ∈ (getFlagsErrorResponse e).body, kv.2 = "Internal server error") ∧
    toggleFlagErrorResponse e = toggleFlagErrorResponse "" ∧
    getFlagsErrorResponse e = getFlagsErrorResponse "" ∧
    ("message", e) ∈ (adminErrorResponse e).body := by
  refine ⟨?_, ?_, rfl, rfl, by simp [adminErrorResponse]⟩
  · intro kv hkv
    simp [toggleFlagErrorResponse] at hkv
    simp [hkv]
  · intro kv hkv
    simp [getFlagsErrorResponse] at hkv
    simp [hkv]

/-! ## Rate limiter (`check_rate_limit` / `consume_rate_limit`, toggle_flag.py)

The rate-limit table row for the fixed window `(client_ip, current_minute)`
is modelled by its `flag_count` attribute: `none` when the row is absent.
A read of that row either succeeds (`Except.ok`) or the store call raises
(`Except.error`). -/

/-- `check_rate_limit`: allowed iff the stored `flag_count` is `< 10`; an
absent row means under the limit; a store error is treated as allowed
(fail open). -/
def check_rate_limit (read : Except Unit (Option Nat)) : Bool :=
  match read with
  | .ok (some count) => decide (count < 10)
  | .ok none => true
  | .error _ => true

/-- `consume_rate_limit`: `ADD flag_count 1`, an atomic increment that
creates the counter at 1 when the row is absent. -/
def consume_rate_limit (w : Option Nat) : Option Nat :=
  some (w.getD 0 + 1)

/-- One sequential POST handled by `toggle_flag.lambda_handler` for a fixed
client and window, with the flag insert itself succeeding: the handler calls
`check_rate_limit` and, only when it allows, `consume_rate_limit`. -/
def rateLimitAttempt (w : Option Nat) : Option Nat :=
  if check_rate_limit (.ok w) then consume_rate_limit w else w

/-- The window counter after `n` such sequential attempts, starting from no
row. -/
def rateLimitAttempts : Nat → Option Nat
  | 0 => none
  | n + 1 => rateLimitAttempt (rateLimitAttempts n)

/-- C7: the check allows exactly the stored counts below 10, allows an absent
row, and allows on a store read error; sequentially from an empty window the
first 10 attempts each consume (the counter reaches 10), and the 11th attempt
is denied by the check and consumes nothing. -/
theorem rate_limit_check_and_sequential_bound :
    (∀ count : Nat, check_rate_limit (.ok (some count)) = decide (count < 10)) ∧
    check_rate_limit (.ok none) = true ∧
    check_rate_limit (.error ()) = true ∧
    (∀ n : Nat, n < 10 → check_rate_limit (.ok (rateLimitAttempts n)) = true) ∧
    rateLimitAttempts 10 = some 10 ∧
    check_rate_limit (.ok (rateLimitAttempts 10)) = false ∧
    rateLimitAttempts 11 = rateLimitAttempts 10 := by
  refine ⟨fun _ => rfl, rfl, rfl, ?_, by decide, by decide, by decide⟩
  intro n hn
  interval_cases n <;> decide

/-- Witness for `rate_limit_check_and_sequential_bound`: the bounded
conjunct instantiated at `n = 3`. -/
theorem rate_limit_check_witness :
    (3 < 10) ∧ check_rate_limit (.ok (rateLimitAttempts 3)) = true :=
  ⟨by decide, rate_limit_check_and_sequential_bound.2.2.2.1 3 (by decide)⟩

/-! ## Summary statistics (admin_get_all_flags.py / TileManager.list_flags)

Both listing call sites compute `days_ago = (now - flag_date).days` with
Python `timedelta.days`, which is floor division of the difference by one
day, then count `days_ago == 0` as `today` and `days_ago <= 7` as
`thisWeek`; a record whose `flaggedAt` fails to parse is skipped by the
`except: continue`. Instants are modelled as integer seconds (UTC), and a
record's parse outcome as `Option Int` (`none` = `fromisoformat` raised). -/

structure FlagSummary where
  total : Nat
  today : Nat
  thisWeek : Nat
deriving DecidableEq, Repr

/-- Python `(now - flag_date).days`: floor division of the signed difference
in seconds by 86400. -/
def days_ago (now t : Int) : Int := (now - t).fdiv 86400

/-- The summary loop of `admin_get_all_flags.lambda_handler` /
`TileManager.list_flags`: `total` is the page length (unparseable records
included), `today` counts `days_ago == 0`, `thisWeek` counts
`days_ago <= 7`. -/
def summarize (flags : List (Option Int)) (now : Int) : FlagSummary :=
  flags.foldl
    (fun acc fa =>
      match fa with
      | none => acc
      | some t =>
          ⟨acc.total,
           acc.today + (if days_ago now t = 0 then 1 else 0),
           acc.thisWeek + (if days_ago now t ≤ 7 then 1 else 0)⟩)
    ⟨flags.length, 0, 0⟩

/-- C2 counterexample: at the claim's own test instance — records flagged at
`now`, `now − 3h`, `now − 2d`, `now − 10d` (here `now = 1700000000`) — the
code's summary has `today = 2`, not `1`: both `now` and `now − 3h` give
`days_ago = 0`, because the code tests a 24-hour floor difference, not the
calendar day. -/
theorem summary_today_claim_fails :
    (summarize [some 1700000000, some (1700000000 - 10800),
                some (1700000000 - 172800), some (1700000000 - 864000)]
        1700000000).today ≠ 1 := by
  decide

theorem summarize_foldl_counts (flags : List (Option Int)) (now : Int)
    (acc : FlagSummary) :
    flags.foldl
      (fun acc fa =>
        match fa with
        | none => acc
        | some t =>
            ⟨acc.total,
             acc.today + (if days_ago now t = 0 then 1 else 0),
             acc.thisWeek + (if days_ago now t ≤ 7 then 1 else 0)⟩)
      acc =
    ⟨acc.total,
     acc.today + (flags.filterMap id).countP (fun t => decide (days_ago now t = 0)),
     acc.thisWeek + (flags.filterMap id).countP (fun t => decide (days_ago now t ≤ 7))⟩ := by
  induction flags generalizing acc with
  | nil =>
      simp only [List.foldl_nil, List.filterMap_nil, List.countP_nil, Nat.add_zero]
  | cons fa rest ih =>
      cases fa with
      | none =>
          have h1 : List.filterMap id (none :: rest) = List.filterMap id rest := rfl
          rw [List.foldl_cons, h1]
          exact ih acc
      | some t =>
          have h1 : List.filterMap id (some t :: rest) = t :: List.filterMap id rest := rfl
          rw [List.foldl_cons]
          rw [ih, h1, List.countP_cons, List.countP_cons]
          simp only [FlagSummary.mk.injEq, decide_eq_true_eq]
          refine ⟨trivial, ?_, ?_⟩
          · by_cases h : days_ago now t = 0 <;> (simp [h]; try omega)
          · by_cases h : days_ago now t ≤ 7 <;> (simp [h]; try omega)

/-- `days_ago now t = 0` says the flag instant lies in the 24-hour interval
ending at `now`, and `days_ago now t ≤ 7` that less than 8 days have
elapsed. -/
theorem days_ago_interval (now t : Int) :
    (days_ago now t = 0 ↔ 0 ≤ now - t ∧ now - t < 86400) ∧
    (days_ago now t ≤ 7 ↔ now - t < 8 * 86400) := by
  unfold days_ago
  rw [Int.fdiv_eq_ediv _ (by norm_num)]
  omega

/-- C2 amended: `total` is always the page length; `today` counts the
parseable records with `0 ≤ now − flaggedAt < 24h` (a 24-hour lookback, not
the UTC calendar day), and `thisWeek` those with `now − flaggedAt < 8` days
(so up to 8 days, and also future-dated records); at the claim's test
instance the summary is `today = 2`, `thisWeek = 3`, `total = 4`. -/
theorem summarize_characterization (flags : List (Option Int)) (now : Int) :
    (summarize flags now).total = flags.length ∧
    (summarize flags now).today =
      (flags.filterMap id).countP (fun t => decide (0 ≤ now - t ∧ now - t < 86400)) ∧
    (summarize flags now).thisWeek =
      (flags.filterMap id).countP (fun t => decide (now - t < 8 * 86400)) ∧
    summarize [some 1700000000, some (1700000000 - 10800),
               some (1700000000 - 172800), some (1700000000 - 864000)]
        1700000000 = ⟨4, 2, 3⟩ := by
  have hc := summarize_foldl_counts flags now ⟨flags.length, 0, 0⟩
  refine ⟨?_, ?_, ?_, by decide⟩
  · rw [summarize, hc]
  · rw [summarize, hc]
    simp only [Nat.zero_add]
    apply List.countP_congr
    intro t _
    have := (days_ago_interval now t).1
    simp only [decide_eq_true_eq]
    tauto
  · rw [summarize, hc]
    simp only [Nat.zero_add]
    apply List.countP_congr
    intro t _
    have := (days_ago_interval now t).2
    simp only [decide_eq_true_eq]
    tauto

/-! ## Flag creation (`flag_tile`, toggle_flag.py)

`flag_tile` issues TWO separate store calls: a `get_item` for the hash, an
early `return False` when an item exists, and otherwise an unconditional
`put_item` (there is no `ConditionExpression`). To settle the concurrency
claim, one call is a two-step process (read, then act), and two calls for
the same hash interleave under an explicit schedule. -/

/-- Program counter of one `flag_tile` call: before the `get_item`, after it
(recording whether an item was found), or returned (recording the returned
boolean: `true` = Created, `false` = AlreadyFlagged). -/
inductive FlagPc where
  | start : FlagPc
  | afterRead (found : Bool) : FlagPc
  | done (created : Bool) : FlagPc
deriving DecidableEq, Repr

/-- One step of a `flag_tile` call writing record `r`, acting on the store's
row for the contested hash. -/
def flagTileStep (r : FlagRecord) (slot : Option FlagRecord) :
    FlagPc → Option FlagRecord × FlagPc
  | .start => (slot, .afterRead slot.isSome)
  | .afterRead true => (slot, .done false)
  | .afterRead false => (some r, .done true)
  | .done b => (slot, .done b)

/-- Global state of two racing `flag_tile(H, …)` calls: the store's row for
`H` and both program counters. -/
structure RaceState where
  slot : Option FlagRecord
  pc1 : FlagPc
  pc2 : FlagPc
deriving DecidableEq, Repr

/-- Scheduler step: `true` steps the first call, `false` the second. -/
def raceStep (r1 r2 : FlagRecord) (s : RaceState) (which : Bool) : RaceState :=
  if which then
    let p := flagTileStep r1 s.slot s.pc1
    ⟨p.1, p.2, s.pc2⟩
  else
    let p := flagTileStep r2 s.slot s.pc2
    ⟨p.1, s.pc1, p.2⟩

/-- Run a schedule over the race of two `flag_tile` calls. -/
def runRace (r1 r2 : FlagRecord) (sched : List Bool) (s : RaceState) : RaceState :=
  sched.foldl (raceStep r1 r2) s

/-- The record the first racing call would write. -/
def raceRecord1 : FlagRecord :=
  ⟨"abc", "/tiles/x.png", "flagged", "2024-01-01T00:00:00.000000", "1.2.3.4", 1706745600⟩

/-- The record the second racing call would write. -/
def raceRecord2 : FlagRecord :=
  ⟨"abc", "/tiles/x.png", "flagged", "2024-01-01T00:00:00.000001", "5.6.7.8", 1706745600⟩

/-- C1: because `flag_tile` is a separate `get_item` followed by an
unconditional `put_item`, the schedule read₁, read₂, write₁, write₂ from an
empty row makes BOTH calls return Created — not one Created and one
AlreadyFlagged as specified — while the purely sequential schedule does give
one Created and one AlreadyFlagged. -/
theorem flag_tile_race_two_created :
    runRace raceRecord1 raceRecord2 [true, false, true, false]
        ⟨none, .start, .start⟩ =
      ⟨some raceRecord2, .done true, .done true⟩ ∧
    runRace raceRecord1 raceRecord2 [true, true, false, false]
        ⟨none, .start, .start⟩ =
      ⟨some raceRecord1, .done true, .done false⟩ := by
  constructor <;> rfl

/-! ## Review session delete action (`review`, tile_manager.py)

The `'d'`/`'delete'` branch of the review loop. The local filesystem is a
predicate saying which paths exist (`os.path.exists`); `os.remove` flips the
deleted path to absent. `manager.delete_flags([hash])` removes the flag row
when present (its `deleted` count is then 1) and reports `not_found`
otherwise — either way the row is absent afterwards. -/

/-- The tile under review, as the action branch reads it:
`flag.get('tilePath')` may be absent (`None`). -/
structure ReviewTile where
  tileHash : String
  tilePath : Option String
deriving DecidableEq, Repr

/-- The three tallies the review session accumulates and reports. -/
structure ReviewCounters where
  reviewed : Nat
  unflagged : Nat
  deleted : Nat
deriving DecidableEq, Repr

/-- Which paths currently exist on the reviewer's filesystem. -/
def FileSystem : Type := String → Bool

/-- The code's validity test `if file_path and file_path != 'N/A'`: an
absent, empty, or `"N/A"` path is invalid. -/
def validTilePath : Option String → Bool
  | none => false
  | some p => p != "" && p != "N/A"

/-- Outcome of one delete action: the filesystem, the flags table, the
tallies, whether the loop `break`s to the next tile (versus re-prompting the
same tile), and whether the confirmation prompt was shown. -/
structure DeleteActionResult where
  fs : FileSystem
  table : FlagTable
  counters : ReviewCounters
  advance : Bool
  prompted : Bool

/-- The `'d'` branch of `review`: with a valid path to an existing file it
prompts; on confirm it removes the file, deletes the flag row, and increments
only the `deleted` tally before breaking to the next tile; on decline it
`continue`s to re-prompt the same tile; with an invalid path or a missing
file it just breaks to the next tile. -/
def reviewDeleteAction (fs : FileSystem) (t : FlagTable) (c : ReviewCounters)
    (tile : ReviewTile) (confirm : Bool) : DeleteActionResult :=
  if validTilePath tile.tilePath then
    let p := tile.tilePath.getD ""
    if fs p then
      if confirm then
        { fs := fun q => if q = p then false else fs q
          table := deleteItem t tile.tileHash
          counters := ⟨c.reviewed, c.unflagged, c.deleted + 1⟩
          advance := true
          prompted := true }
      else
        { fs := fs, table := t, counters := c, advance := false, prompted := true }
    else
      { fs := fs, table := t, counters := c, advance := true, prompted := false }
  else
    { fs := fs, table := t, counters := c, advance := true, prompted := false }

/-- A concrete filesystem on which `/tiles/x.png` exists. -/
def reviewFs : FileSystem := fun q => q == "/tiles/x.png"

/-- A concrete flags table holding only the contested record. -/
def reviewTable : FlagTable :=
  fun k => if k = "abc" then some raceRecord1 else none

/-- The tile under review in the concrete scenarios. -/
def reviewTile : ReviewTile := ⟨"abc", some "/tiles/x.png"⟩

/-- C5 counterexample: on a confirmed delete of an existing file the code
increments only the `deleted` tally — the `unflagged` tally stays 0 instead
of also being incremented as the claim states. -/
theorem review_delete_does_not_increment_unflagged :
    (reviewDeleteAction reviewFs reviewTable ⟨0, 0, 0⟩ reviewTile true).counters.unflagged
        = 0 ∧
    (reviewDeleteAction reviewFs reviewTable ⟨0, 0, 0⟩ reviewTile true).counters.deleted
        = 1 ∧
    ((reviewDeleteAction reviewFs reviewTable ⟨0, 0, 0⟩ reviewTile true).counters.unflagged
        ≠ 0 + 1) := by
  refine ⟨rfl, rfl, by decide⟩

/-- C5 amended: for a valid path to an existing file, a confirmed delete
removes the file, removes the flag row, increments the `deleted` tally and
leaves the `unflagged` (and `reviewed`) tallies unchanged, then advances to
the next tile; a declined delete changes nothing and stays on the same tile
awaiting another action. -/
theorem review_delete_confirm_and_decline (fs : FileSystem) (t : FlagTable)
    (c : ReviewCounters) (tile : ReviewTile) (p : String)
    (hpath : tile.tilePath = some p) (hvalid : validTilePath tile.tilePath = true)
    (hexists : fs p = true) :
    ((reviewDeleteAction fs t c tile true).fs p = false ∧
     (reviewDeleteAction fs t c tile true).table tile.tileHash = none ∧
     (reviewDeleteAction fs t c tile true).counters =
       ⟨c.reviewed, c.unflagged, c.deleted + 1⟩ ∧
     (reviewDeleteAction fs t c tile true).advance = true) ∧
    ((reviewDeleteAction fs t c tile false).fs = fs ∧
     (reviewDeleteAction fs t c tile false).table = t ∧
     (reviewDeleteAction fs t c tile false).counters = c ∧
     (reviewDeleteAction fs t c tile false).advance = false ∧
     (reviewDeleteAction fs t c tile false).prompted = true) := by
  have hg : tile.tilePath.getD "" = p := by rw [hpath]; rfl
  constructor
  · refine ⟨?_, ?_, ?_, ?_⟩ <;>
      simp [reviewDeleteAction, hvalid, hg, hexists, deleteItem]
  · refine ⟨?_, ?_, ?_, ?_, ?_⟩ <;>
      simp [reviewDeleteAction, hvalid, hg, hexists]

/-- Witness for `review_delete_confirm_and_decline` at the concrete
scenario. -/
theorem review_delete_confirm_witness :
    (reviewDeleteAction reviewFs reviewTable ⟨2, 1, 0⟩ reviewTile true).table "abc"
        = none ∧
    (reviewDeleteAction reviewFs reviewTable ⟨2, 1, 0⟩ reviewTile true).counters
        = ⟨2, 1, 1⟩ ∧
    (reviewDeleteAction reviewFs reviewTable ⟨2, 1, 0⟩ reviewTile false).counters
        = ⟨2, 1, 0⟩ ∧
    (reviewDeleteAction reviewFs reviewTable ⟨2, 1, 0⟩ reviewTile false).advance
        = false := by
  have h := review_delete_confirm_and_decline reviewFs reviewTable ⟨2, 1, 0⟩
    reviewTile "/tiles/x.png" rfl (by decide) (by decide)
  exact ⟨h.1.2.1, h.1.2.2.1, h.2.2.2.1, h.2.2.2.2.1⟩

/-- C10: choosing delete on a tile whose path is invalid (`None`, empty, or
`"N/A"`) or whose file does not exist leaves the filesystem, the flags table
and every tally unchanged, advances to the next tile, and never shows the
confirmation prompt. -/
theorem review_delete_missing_file_skips (fs : FileSystem) (t : FlagTable)
    (c : ReviewCounters) (tile : ReviewTile) (confirm : Bool)
    (h : validTilePath tile.tilePath = false ∨
         fs (tile.tilePath.getD "") = false) :
    (reviewDeleteAction fs t c tile confirm).fs = fs ∧
    (reviewDeleteAction fs t c tile confirm).table = t ∧
    (reviewDeleteAction fs t c tile confirm).counters = c ∧
    (reviewDeleteAction fs t c tile confirm).advance = true ∧
    (reviewDeleteAction fs t c tile confirm).prompted = false := by
  rcases h with h | h
  · refine ⟨?_, ?_, ?_, ?_, ?_⟩ <;> simp [reviewDeleteAction, h]
  · refine ⟨?_, ?_, ?_, ?_, ?_⟩ <;>
      (by_cases hv : validTilePath tile.tilePath <;>
        simp [reviewDeleteAction, hv, h])

/-- Witness for `review_delete_missing_file_skips`: a tile whose stored path
is the placeholder `"N/A"`. -/
theorem review_delete_missing_file_witness :
    (reviewDeleteAction reviewFs reviewTable ⟨0, 0, 0⟩ ⟨"abc", some "N/A"⟩ true).counters
        = ⟨0, 0, 0⟩ ∧
    (reviewDeleteAction reviewFs reviewTable ⟨0, 0, 0⟩ ⟨"abc", some "N/A"⟩ true).advance
        = true ∧
    (reviewDeleteAction reviewFs reviewTable ⟨0, 0, 0⟩ ⟨"abc", some "N/A"⟩ true).prompted
        = false := by
  have h := review_delete_missing_file_skips reviewFs reviewTable ⟨0, 0, 0⟩
    ⟨"abc", some "N/A"⟩ true (Or.inl (by decide))
  exact ⟨h.2.2.1, h.2.2.2.1, h.2.2.2.2⟩

/-! ## Batch flag lookup (get_flags.py) -/

/-- One entry of the caller-visible mapping built by `get_tile_flags`. -/
structure FlagInfo where
  flagged : Bool
  flaggedAt : String
  flagStatus : String
  tilePath : String
deriving DecidableEq, Repr

/-- A `dynamodb.batch_get_item` response: the found items among the keys the
store processed in this pass (`Responses`), plus the number of requested
entries it left unprocessed (`UnprocessedKeys`); the store may leave any
suffix of the requested keys unprocessed. -/
structure BatchGetResponse where
  items : List FlagRecord
  unprocessedCount : Nat
deriving DecidableEq, Repr

/-- The batch read issued by `get_tile_flags`: look up each processed key and
return the found items, reporting `u` entries as unprocessed. -/
def batch_get_item (t : FlagTable) (hashes : List String) (u : Nat) :
    BatchGetResponse :=
  ⟨(hashes.take (hashes.length - u)).filterMap t, u⟩

/-- `get_tile_flags` from `get_flags.py`: builds the mapping from the found
items only; a non-empty `UnprocessedKeys` is merely printed as a warning
(`# Could implement retry logic here`) and does not reach the returned
mapping. -/
def get_tile_flags (resp : BatchGetResponse) : List (String × FlagInfo) :=
  resp.items.map fun item =>
    (item.tile_hash, ⟨true, item.flagged_at, item.flag_status, item.tile_path⟩)

/-- The 200 body of `get_flags.lambda_handler`. -/
structure GetFlagsBody where
  success : Bool
  flags : List (String × FlagInfo)
  count : Nat
deriving DecidableEq, Repr

/-- `get_flags.lambda_handler` after JSON parsing: batch-size validation,
then the batch lookup; the body carries only the mapping and its size. -/
def getFlagsHandler (t : FlagTable) (hashes : List String) (u : Nat) :
    Except String GetFlagsBody :=
  if hashes = [] then .error "tileHashes array required"
  else if 100 < hashes.length then .error "Maximum 100 tile hashes per request"
  else
    let flags := get_tile_flags (batch_get_item t hashes u)
    .ok ⟨true, flags, flags.length⟩

/-- A concrete record under hash `"a"`. -/
def flagRecA : FlagRecord :=
  ⟨"a", "/tiles/a.png", "flagged", "2024-02-01T10:00:00", "1.2.3.4", 1709287200⟩

/-- A concrete record under hash `"b"`. -/
def flagRecB : FlagRecord :=
  ⟨"b", "/tiles/b.png", "flagged", "2024-02-02T10:00:00", "1.2.3.4", 1709373600⟩

/-- A table holding both records. -/
def storeAB : FlagTable :=
  fun k => if k = "a" then some flagRecA else if k = "b" then some flagRecB else none

/-- A table holding only the record under `"a"`. -/
def storeA : FlagTable :=
  fun k => if k = "a" then some flagRecA else none

/-- C8 counterexample: a request for `["a", "b"]` against a table where `"b"`
IS flagged but the store leaves one entry unprocessed produces exactly the
same caller response as a request against a table where `"b"` is not flagged
at all — the unprocessed remainder is not surfaced as any retryable count, it
is silently dropped. -/
theorem batch_get_unprocessed_not_surfaced :
    getFlagsHandler storeAB ["a", "b"] 1 = getFlagsHandler storeA ["a", "b"] 0 ∧
    storeAB "b" = some flagRecB ∧ storeA "b" = none := by
  refine ⟨rfl, rfl, rfl⟩

/-- C8 amended: for a non-empty batch of at most 100 hashes, the handler
succeeds and a hash with no flag record is simply absent from the result
mapping (not an error); unprocessed store entries are only logged, leaving
them indistinguishable from absent flags in the response. -/
theorem batch_get_absent_hashes_absent (t : FlagTable) (hashes : List String)
    (u : Nat) (h : String)
    (hwf : ∀ k r, t k = some r → r.tile_hash = k)
    (hne : hashes ≠ []) (hlen : hashes.length ≤ 100) (habs : t h = none) :
    ∃ body, getFlagsHandler t hashes u = .ok body ∧
      h ∉ body.flags.map Prod.fst := by
  unfold getFlagsHandler
  rw [if_neg hne, if_neg (by omega)]
  refine ⟨_, rfl, ?_⟩
  intro hmem
  simp only [get_tile_flags, batch_get_item, List.map_map, List.mem_map,
    Function.comp_apply] at hmem
  obtain ⟨item, hitem, hhash⟩ := hmem
  obtain ⟨k, _, hk⟩ := List.mem_filterMap.mp hitem
  have hkh := hwf k item hk
  rw [hkh] at hhash
  rw [hhash] at hk
  rw [habs] at hk
  cases hk

/-- Witness for `batch_get_absent_hashes_absent`: the concrete single-record
table, where `"b"` has no record. -/
theorem batch_get_absent_witness :
    ∃ body, getFlagsHandler storeA ["a", "b"] 0 = .ok body ∧
      "b" ∉ body.flags.map Prod.fst := by
  apply batch_get_absent_hashes_absent storeA ["a", "b"] 0 "b"
  · intro k r hr
    simp only [storeA] at hr
    split at hr
    · next hk => cases hr; exact hk.symm
    · cases hr
  · intro hc; cases hc
  · decide
  · decide

/-! ## Listing sort (admin_get_all_flags.py / TileManager.list_flags)

Both listing call sites run
`flags.sort(key=lambda x: x.get('flaggedAt', ''), reverse=True)`.
The formatted dict always contains the `'flaggedAt'` key (set from
`item.get('flagged_at')`), so the `''` default never applies and an item
without `flagged_at` contributes Python `None` as its sort key. Comparing
`None` against a string (or another `None`) raises `TypeError`, which aborts
the sort — that happens exactly when the page has at least two entries and
one of them has a `None` key. Otherwise the keys are strings and the sort is
the stable descending sort by lexicographic string order. -/

deriving instance DecidableEq for Except

/-- A formatted listing entry: `flaggedAt` is `none` when the stored item
lacks `flagged_at`. -/
structure ListedFlag where
  tileHash : String
  flaggedAt : Option String
deriving DecidableEq, Repr

/-- The sort key of an entry whose `flaggedAt` is present. -/
def sortKey (r : ListedFlag) : String := r.flaggedAt.getD ""

/-- Python's `str < str`: lexicographic comparison by code point. -/
def pyStrLtChars : List Char → List Char → Bool
  | [], [] => false
  | [], _ :: _ => true
  | _ :: _, [] => false
  | a :: as, b :: bs =>
      if a.toNat < b.toNat then true
      else if b.toNat < a.toNat then false
      else pyStrLtChars as bs

/-- Python's `<` on strings. -/
def pyStrLt (s t : String) : Bool := pyStrLtChars s.data t.data

theorem pyStrLtChars_irrefl (a : List Char) : pyStrLtChars a a = false := by
  induction a with
  | nil => rfl
  | cons x xs ih => rw [pyStrLtChars]; simp [ih]

theorem pyStrLtChars_trans (a : List Char) : ∀ b c : List Char,
    pyStrLtChars a b = true → pyStrLtChars b c = true →
    pyStrLtChars a c = true := by
  induction a with
  | nil =>
      intro b c hab hbc
      cases b with
      | nil => cases hab
      | cons y ys =>
          cases c with
          | nil => cases hbc
          | cons z zs => rfl
  | cons x xs ih =>
      intro b c hab hbc
      cases b with
      | nil => cases hab
      | cons y ys =>
          cases c with
          | nil => cases hbc
          | cons z zs =>
              rw [pyStrLtChars] at hab hbc ⊢
              by_cases h1 : x.toNat < y.toNat
              · by_cases h2 : y.toNat < z.toNat
                · have h3 : x.toNat < z.toNat := by omega
                  simp [h3]
                · by_cases h2b : z.toNat < y.toNat
                  · simp [h2, h2b] at hbc
                  · have h3 : x.toNat < z.toNat := by omega
                    simp [h3]
              · by_cases h1b : y.toNat < x.toNat
                · simp [h1, h1b] at hab
                · simp only [h1, if_false, h1b] at hab
                  by_cases h2 : y.toNat < z.toNat
                  · have h3 : x.toNat < z.toNat := by omega
                    simp [h3]
                  · by_cases h2b : z.toNat < y.toNat
                    · simp [h2, h2b] at hbc
                    · rw [if_neg h2, if_neg h2b] at hbc
                      have h3 : ¬x.toNat < z.toNat := by omega
                      have h3b : ¬z.toNat < x.toNat := by omega
                      rw [if_neg h3, if_neg h3b]
                      exact ih ys zs hab hbc

theorem pyStrLt_asymm (s t : String) (h : pyStrLt s t = true) :
    pyStrLt t s = false := by
  cases hc : pyStrLt t s with
  | false => rfl
  | true =>
      have h2 := pyStrLtChars_trans s.data t.data s.data h hc
      rw [pyStrLtChars_irrefl] at h2
      cases h2

theorem pyStrLt_false_of_le_of_lt (x y r : String)
    (hxy : pyStrLt x y = false) (hxr : pyStrLt x r = true) :
    pyStrLt r y = false := by
  cases hc : pyStrLt r y with
  | false => rfl
  | true =>
      have h2 := pyStrLtChars_trans x.data r.data y.data hxr hc
      rw [pyStrLt] at hxy
      rw [h2] at hxy
      cases hxy

/-- Stable descending insertion: the (later-arriving) entry `r` goes after
every earlier entry whose key is ≥ its own, before the first strictly
smaller one — the order `list.sort(key=…, reverse=True)` produces. -/
def insertDesc (r : ListedFlag) : List ListedFlag → List ListedFlag
  | [] => [r]
  | x :: xs =>
      if pyStrLt (sortKey x) (sortKey r) then r :: x :: xs
      else x :: insertDesc r xs

/-- The full stable descending sort. -/
def sortFlagsDesc (l : List ListedFlag) : List ListedFlag :=
  l.foldl (fun acc r => insertDesc r acc) []

/-- The listing sort with Python's failure mode: `TypeError` when a `None`
key gets compared, i.e. when the page has ≥ 2 entries and some entry has no
`flaggedAt`. -/
def sortListedFlags (l : List ListedFlag) : Except Unit (List ListedFlag) :=
  if 2 ≤ l.length && l.any (fun r => r.flaggedAt.isNone) then .error ()
  else .ok (sortFlagsDesc l)

theorem insertDesc_perm (r : ListedFlag) (l : List ListedFlag) :
    List.Perm (insertDesc r l) (r :: l) := by
  induction l with
  | nil => exact List.Perm.refl _
  | cons x xs ih =>
      rw [insertDesc]
      split
      · exact List.Perm.refl _
      · exact (ih.cons x).trans (List.Perm.swap r x xs)

theorem insertDesc_sorted (r : ListedFlag) (l : List ListedFlag)
    (hl : l.Pairwise (fun a b => pyStrLt (sortKey a) (sortKey b) = false)) :
    (insertDesc r l).Pairwise
      (fun a b => pyStrLt (sortKey a) (sortKey b) = false) := by
  induction l with
  | nil => simp [insertDesc]
  | cons x xs ih =>
      rw [insertDesc]
      rcases List.pairwise_cons.mp hl with ⟨hx, hxs⟩
      split
      · next hlt =>
          refine List.pairwise_cons.mpr ⟨?_, hl⟩
          intro y hy
          rcases List.mem_cons.mp hy with hy | hy
          · rw [hy]; exact pyStrLt_asymm _ _ hlt
          · exact pyStrLt_false_of_le_of_lt (sortKey x) (sortKey y) (sortKey r)
              (hx y hy) hlt
      · next hge =>
          simp only [Bool.not_eq_true] at hge
          refine List.pairwise_cons.mpr ⟨?_, ih hxs⟩
          intro y hy
          have hy2 : y ∈ r :: xs := (insertDesc_perm r xs).mem_iff.mp hy
          rcases List.mem_cons.mp hy2 with hy2 | hy2
          · rw [hy2]; exact hge
          · exact hx y hy2

theorem sortFlagsDesc_aux_perm (l acc : List ListedFlag) :
    List.Perm (l.foldl (fun a r => insertDesc r a) acc) (l ++ acc) := by
  induction l generalizing acc with
  | nil => exact List.Perm.refl _
  | cons x xs ih =>
      rw [List.foldl_cons]
      exact ((ih (insertDesc x acc)).trans
        (List.Perm.append_left xs (insertDesc_perm x acc))).trans
        List.perm_middle

theorem sortFlagsDesc_aux_sorted (l acc : List ListedFlag)
    (hacc : acc.Pairwise (fun a b => pyStrLt (sortKey a) (sortKey b) = false)) :
    (l.foldl (fun a r => insertDesc r a) acc).Pairwise
      (fun a b => pyStrLt (sortKey a) (sortKey b) = false) := by
  induction l generalizing acc with
  | nil => exact hacc
  | cons x xs ih =>
      rw [List.foldl_cons]
      exact ih _ (insertDesc_sorted x acc hacc)

/-- A concrete entry with an unparseable timestamp string. -/
def listedUnparseable : ListedFlag := ⟨"h1", some "zzz"⟩

/-- A concrete entry with a well-formed ISO timestamp. -/
def listedIso : ListedFlag := ⟨"h2", some "2024-01-01T00:00:00"⟩

/-- A second well-formed entry, flagged earlier. -/
def listedIsoOld : ListedFlag := ⟨"h4", some "2023-06-01T00:00:00"⟩

/-- A concrete entry with no `flagged_at` attribute. -/
def listedMissing : ListedFlag := ⟨"h3", none⟩

/-- C3 counterexample: an entry whose `flaggedAt` is the unparseable string
`"zzz"` sorts FIRST (lexicographically above every ISO timestamp), not last;
and a page containing an entry with a missing `flaggedAt` makes the sort
raise (`TypeError`), so the listing does not succeed on such records. -/
theorem sort_unparseable_first_and_missing_fails :
    sortListedFlags [listedIso, listedUnparseable] =
      .ok [listedUnparseable, listedIso] ∧
    sortListedFlags [listedMissing, listedIso] = .error () := by
  refine ⟨by decide, by decide⟩

/-- C3 amended: when every record of the page has a `flaggedAt` value, the
listing sort succeeds and returns a permutation of the page that is sorted
by the raw `flaggedAt` string, descending (so unparseable strings sort by
their lexicographic value, not last); a page of ≥ 2 records with a missing
`flaggedAt` instead fails the listing. -/
theorem sort_succeeds_sorted_perm_when_keys_present (l : List ListedFlag)
    (h : ∀ r ∈ l, r.flaggedAt.isSome) :
    sortListedFlags l = .ok (sortFlagsDesc l) ∧
    (sortFlagsDesc l).Pairwise
      (fun a b => pyStrLt (sortKey a) (sortKey b) = false) ∧
    List.Perm (sortFlagsDesc l) l := by
  have hany : (l.any fun r => r.flaggedAt.isNone) = false := by
    rw [List.any_eq_false]
    intro r hr
    have h2 := h r hr
    rw [Option.isNone_iff_eq_none]
    intro hnone
    rw [hnone] at h2
    simp at h2
  refine ⟨?_, ?_, ?_⟩
  · rw [sortListedFlags, hany, Bool.and_false]
    rfl
  · exact sortFlagsDesc_aux_sorted l [] (List.Pairwise.nil)
  · exact (sortFlagsDesc_aux_perm l []).trans (by rw [List.append_nil])

/-- Witness for `sort_succeeds_sorted_perm_when_keys_present` on a concrete
two-entry page. -/
theorem sort_succeeds_witness :
    sortListedFlags [listedIsoOld, listedIso] =
      .ok (sortFlagsDesc [listedIsoOld, listedIso]) ∧
    (sortFlagsDesc [listedIsoOld, listedIso]).Pairwise
      (fun a b => pyStrLt (sortKey a) (sortKey b) = false) ∧
    List.Perm (sortFlagsDesc [listedIsoOld, listedIso]) [listedIsoOld, listedIso] :=
  sort_succeeds_sorted_perm_when_keys_present [listedIsoOld, listedIso]
    (by decide)

/-! ## Pagination cursor (admin_get_all_flags.py / TileManager.list_flags)

The cursor is `base64.b64encode(json.dumps(last_evaluated_key).encode('utf-8'))`
and decoding is `json.loads(base64.b64decode(token).decode('utf-8'))` inside a
`try`; any exception is caught, a warning is printed, and the scan proceeds
without an `ExclusiveStartKey`.

Bytes are `Nat` (< 256); base64 is the standard alphabet, with Python's
default `validate=False` behaviour of discarding characters outside the
alphabet before the padding check. The UTF-8 codec is modelled for ASCII
text (one byte per character), which covers every JSON text produced here. -/

/-- The standard base64 alphabet. -/
def b64Alphabet : List Char :=
  ("ABCDEFGHIJKLMNOPQRSTUVWXYZabcdefghijklmnopqrstuvwxyz0123456789+/").data

/-- The alphabet character of a sextet. -/
def b64Char (n : Nat) : Char := b64Alphabet.getD n 'A'

/-- Position of a character in the alphabet, if any. -/
def b64IndexAux (c : Char) : List Char → Nat → Option Nat
  | [], _ => none
  | a :: as, i => if a = c then some i else b64IndexAux c as (i + 1)

/-- The sextet value of an alphabet character. -/
def b64Index (c : Char) : Option Nat := b64IndexAux c b64Alphabet 0

/-- Characters `b64decode` keeps before decoding: the alphabet and the
padding character (everything else is discarded, Python's
`validate=False`). -/
def b64Keep (c : Char) : Bool := (b64Index c).isSome || c == '='

/-- `base64.b64encode` on a byte list, three bytes to four characters with
trailing padding. -/
def b64EncodeChunks : List Nat → List Char
  | a :: b :: c :: rest =>
      b64Char (a / 4) :: b64Char (a % 4 * 16 + b / 16) ::
        b64Char (b % 16 * 4 + c / 64) :: b64Char (c % 64) ::
        b64EncodeChunks rest
  | [a, b] => [b64Char (a / 4), b64Char (a % 4 * 16 + b / 16), b64Char (b % 16 * 4), '=']
  | [a] => [b64Char (a / 4), b64Char (a % 4 * 16), '=', '=']
  | [] => []

/-- `base64.b64decode` after the discarding step: four characters to three
bytes, with the two padded final-chunk forms; anything else (wrong length,
stray padding, non-alphabet character) raises, modelled as `none`. -/
def b64DecodeChunks : List Char → Option (List Nat)
  | [] => some []
  | c1 :: c2 :: c3 :: c4 :: rest =>
      if c3 == '=' && c4 == '=' && rest.isEmpty then
        match b64Index c1, b64Index c2 with
        | some v1, some v2 => some [v1 * 4 + v2 / 16]
        | _, _ => none
      else if c4 == '=' && rest.isEmpty then
        match b64Index c1, b64Index c2, b64Index c3 with
        | some v1, some v2, some v3 =>
            some [v1 * 4 + v2 / 16, v2 % 16 * 16 + v3 / 4]
        | _, _, _ => none
      else
        match b64Index c1, b64Index c2, b64Index c3, b64Index c4,
            b64DecodeChunks rest with
        | some v1, some v2, some v3, some v4, some bs =>
            some ((v1 * 4 + v2 / 16) :: (v2 % 16 * 16 + v3 / 4) ::
              (v3 % 4 * 64 + v4) :: bs)
        | _, _, _, _, _ => none
  | _ => none

/-- `base64.b64encode(...)` as a string. -/
def b64encode (bs : List Nat) : String := ⟨b64EncodeChunks bs⟩

/-- `base64.b64decode(...)`: discard foreign characters, then decode. -/
def b64decode (s : String) : Option (List Nat) :=
  b64DecodeChunks (s.data.filter b64Keep)

theorem b64Index_b64Char : ∀ v : Nat, v < 64 → b64Index (b64Char v) = some v := by
  decide

theorem b64Char_ne_pad : ∀ v : Nat, v < 64 → (b64Char v == '=') = false := by
  decide

theorem b64Keep_b64Char : ∀ v : Nat, v < 64 → b64Keep (b64Char v) = true := by
  decide

theorem b64EncodeChunks_filter : ∀ bs : List Nat, (∀ x ∈ bs, x < 256) →
    (b64EncodeChunks bs).filter b64Keep = b64EncodeChunks bs
  | [], _ => rfl
  | [a], h => by
      have ha : a < 256 := h a (by simp)
      rw [b64EncodeChunks]
      simp [List.filter_cons, b64Keep_b64Char _ (by omega : a / 4 < 64),
        b64Keep_b64Char _ (by omega : a % 4 * 16 < 64),
        show b64Keep ('=') = true from rfl]
  | [a, b], h => by
      have ha : a < 256 := h a (by simp)
      have hb : b < 256 := h b (by simp)
      rw [b64EncodeChunks]
      simp [List.filter_cons, b64Keep_b64Char _ (by omega : a / 4 < 64),
        b64Keep_b64Char _ (by omega : a % 4 * 16 + b / 16 < 64),
        b64Keep_b64Char _ (by omega : b % 16 * 4 < 64),
        show b64Keep ('=') = true from rfl]
  | a :: b :: c :: rest, h => by
      have ha : a < 256 := h a (List.mem_cons_self a _)
      have hb : b < 256 := h b (List.mem_cons_of_mem a (List.mem_cons_self b _))
      have hc : c < 256 := h c
        (List.mem_cons_of_mem a (List.mem_cons_of_mem b (List.mem_cons_self c _)))
      have ih := b64EncodeChunks_filter rest
        (fun x hx => h x (List.mem_cons_of_mem a
          (List.mem_cons_of_mem b (List.mem_cons_of_mem c hx))))
      rw [b64EncodeChunks]
      simp only [List.filter_cons, b64Keep_b64Char _ (by omega : a / 4 < 64),
        b64Keep_b64Char _ (by omega : a % 4 * 16 + b / 16 < 64),
        b64Keep_b64Char _ (by omega : b % 16 * 4 + c / 64 < 64),
        b64Keep_b64Char _ (by omega : c % 64 < 64), if_true]
      rw [ih]

theorem b64DecodeChunks_encode : ∀ bs : List Nat, (∀ x ∈ bs, x < 256) →
    b64DecodeChunks (b64EncodeChunks bs) = some bs
  | [], _ => rfl
  | [a], h => by
      have ha : a < 256 := h a (by simp)
      rw [b64EncodeChunks]
      simp only [b64DecodeChunks, b64Index_b64Char _ (by omega : a / 4 < 64),
        b64Index_b64Char _ (by omega : a % 4 * 16 < 64)]
      simp
      omega
  | [a, b], h => by
      have ha : a < 256 := h a (by simp)
      have hb : b < 256 := h b (by simp)
      rw [b64EncodeChunks]
      simp only [b64DecodeChunks,
        b64Char_ne_pad _ (by omega : b % 16 * 4 < 64),
        b64Index_b64Char _ (by omega : a / 4 < 64),
        b64Index_b64Char _ (by omega : a % 4 * 16 + b / 16 < 64),
        b64Index_b64Char _ (by omega : b % 16 * 4 < 64)]
      simp
      constructor <;> omega
  | a :: b :: c :: rest, h => by
      have ha : a < 256 := h a (List.mem_cons_self a _)
      have hb : b < 256 := h b (List.mem_cons_of_mem a (List.mem_cons_self b _))
      have hc : c < 256 := h c
        (List.mem_cons_of_mem a (List.mem_cons_of_mem b (List.mem_cons_self c _)))
      have ih := b64DecodeChunks_encode rest
        (fun x hx => h x (List.mem_cons_of_mem a
          (List.mem_cons_of_mem b (List.mem_cons_of_mem c hx))))
      rw [b64EncodeChunks]
      simp only [b64DecodeChunks, ih,
        b64Char_ne_pad _ (by omega : b % 16 * 4 + c / 64 < 64),
        b64Char_ne_pad _ (by omega : c % 64 < 64),
        b64Index_b64Char _ (by omega : a / 4 < 64),
        b64Index_b64Char _ (by omega : a % 4 * 16 + b / 16 < 64),
        b64Index_b64Char _ (by omega : b % 16 * 4 + c / 64 < 64),
        b64Index_b64Char _ (by omega : c % 64 < 64)]
      simp
      refine ⟨by omega, by omega, by omega⟩

theorem b64decode_encode (bs : List Nat) (h : ∀ x ∈ bs, x < 256) :
    b64decode (b64encode bs) = some bs := by
  rw [b64decode, b64encode]
  rw [show (String.mk (b64EncodeChunks bs)).data = b64EncodeChunks bs from rfl]
  rw [b64EncodeChunks_filter bs h, b64DecodeChunks_encode bs h]

/-- The store's native resume key for the flags table (the DynamoDB
`LastEvaluatedKey`): the dict holding the table's primary key,
`{'tile_hash': h}`. -/
structure LastEvaluatedKey where
  tile_hash : String
deriving DecidableEq, Repr

/-- `json.dumps({'tile_hash': h})` for a key value that needs no JSON string
escapes (a tile hash: ASCII without `"` or backslash). -/
def jsonDumpKey (k : LastEvaluatedKey) : String :=
  "\x7b\"tile_hash\": \"" ++ k.tile_hash ++ "\"\x7d"

/-- Strip an expected leading character sequence. -/
def stripLeading : List Char → List Char → Option (List Char)
  | [], cs => some cs
  | _ :: _, [] => none
  | p :: ps, c :: cs => if c = p then stripLeading ps cs else none

/-- `json.loads` restricted to the object shape `json.dumps` produces here:
the fixed opening text, then the unescaped key value up to the closing
quote, then the fixed closing text; anything else raises, modelled as
`none`. -/
def jsonParseKey (s : String) : Option LastEvaluatedKey :=
  (stripLeading ("\x7b\"tile_hash\": \"").data s.data).bind fun rest =>
    if rest.dropWhile (fun c => c != '"') = ("\"\x7d").data then
      some ⟨⟨rest.takeWhile (fun c => c != '"')⟩⟩
    else none

/-- `.encode('utf-8')` for ASCII text: one byte per character. -/
def utf8Encode (s : String) : List Nat := s.data.map Char.toNat

/-- `.decode('utf-8')` for ASCII bytes. -/
def utf8Decode (bs : List Nat) : String := ⟨bs.map Char.ofNat⟩

/-- The cursor encoding of both listing call sites:
`base64.b64encode(json.dumps(key).encode('utf-8')).decode('utf-8')`. -/
def encodeLastKey (k : LastEvaluatedKey) : String :=
  b64encode (utf8Encode (jsonDumpKey k))

/-- The cursor decoding:
`json.loads(base64.b64decode(token).decode('utf-8'))`; either stage may
raise. -/
def decodeLastKey (t : String) : Except String LastEvaluatedKey :=
  match b64decode t with
  | none => .error "binascii.Error: Invalid base64-encoded string"
  | some bs =>
      match jsonParseKey (utf8Decode bs) with
      | none => .error "json.decoder.JSONDecodeError"
      | some k => .ok k

/-- The `ExclusiveStartKey` both listing call sites hand to the scan: no
token means no start key, and a token whose decode raises is caught
(`except: print warning`) and the scan likewise starts from the beginning —
the caller's request is never failed by a bad token. -/
def resolveStartKey : Option String → Option LastEvaluatedKey
  | none => none
  | some t =>
      match decodeLastKey t with
      | .ok k => some k
      | .error _ => none

theorem stripLeading_append (p cs : List Char) :
    stripLeading p (p ++ cs) = some cs := by
  induction p with
  | nil => rfl
  | cons x xs ih => simp [stripLeading, ih]

theorem takeWhile_append_stop (l t : List Char)
    (hl : ∀ c ∈ l, (c != '"') = true) :
    (l ++ '"' :: t).takeWhile (fun c => c != '"') = l := by
  induction l with
  | nil => simp [List.takeWhile]
  | cons x xs ih =>
      have hx := hl x (List.mem_cons_self x _)
      simp only [List.cons_append, List.takeWhile_cons, hx, if_true]
      rw [ih (fun c hc => hl c (List.mem_cons_of_mem x hc))]

theorem dropWhile_append_stop (l t : List Char)
    (hl : ∀ c ∈ l, (c != '"') = true) :
    (l ++ '"' :: t).dropWhile (fun c => c != '"') = '"' :: t := by
  induction l with
  | nil => simp [List.dropWhile]
  | cons x xs ih =>
      have hx := hl x (List.mem_cons_self x _)
      simp only [List.cons_append, List.dropWhile_cons, hx, if_true]
      exact ih (fun c hc => hl c (List.mem_cons_of_mem x hc))

theorem jsonParseKey_dump (k : LastEvaluatedKey)
    (hk : ∀ c ∈ k.tile_hash.data, (c != '"') = true) :
    jsonParseKey (jsonDumpKey k) = some k := by
  have hdata : (jsonDumpKey k).data =
      ("\x7b\"tile_hash\": \"").data ++
        (k.tile_hash.data ++ '"' :: ('\x7d' :: [])) := by
    rw [jsonDumpKey, String.data_append, String.data_append]
    rfl
  rw [jsonParseKey, hdata, stripLeading_append, Option.some_bind]
  rw [takeWhile_append_stop _ _ hk, dropWhile_append_stop _ _ hk]
  rfl

theorem utf8_roundtrip (s : String) : utf8Decode (utf8Encode s) = s := by
  rw [utf8Encode, utf8Decode, List.map_map]
  have : (Char.ofNat ∘ Char.toNat) = id := by
    funext c
    simp [Function.comp, Char.ofNat_toNat]
  rw [this, List.map_id]

theorem utf8Encode_bytes_lt (s : String) (h : ∀ c ∈ s.data, c.toNat < 256) :
    ∀ x ∈ utf8Encode s, x < 256 := by
  intro x hx
  rw [utf8Encode] at hx
  obtain ⟨c, hc, rfl⟩ := List.mem_map.mp hx
  exact h c hc

theorem jsonDumpKey_ascii (k : LastEvaluatedKey)
    (h : ∀ c ∈ k.tile_hash.data, c.toNat < 256) :
    ∀ c ∈ (jsonDumpKey k).data, c.toNat < 256 := by
  have hpre : ∀ c ∈ ("\x7b\"tile_hash\": \"").data, c.toNat < 256 := by decide
  have hsuf : ∀ c ∈ ("\"\x7d").data, c.toNat < 256 := by decide
  intro c hc
  rw [jsonDumpKey, String.data_append, String.data_append] at hc
  rcases List.mem_append.mp hc with hc | hc
  · rcases List.mem_append.mp hc with hc | hc
    · exact hpre c hc
    · exact h c hc
  · exact hsuf c hc

/-- C9: for every valid native resume key (a tile hash of characters below
code point 256 other than `"`), decoding the encoded cursor gives the key
back; and the malformed token `"not-base64"` neither aborts nor fails the
listing — both the direct decode error and the caught handler path degrade
to scanning from the beginning. -/
theorem cursor_roundtrip_and_bad_token (k : LastEvaluatedKey)
    (hascii : ∀ c ∈ k.tile_hash.data, c.toNat < 256)
    (hq : ∀ c ∈ k.tile_hash.data, (c != '"') = true) :
    decodeLastKey (encodeLastKey k) = .ok k ∧
    resolveStartKey (some (encodeLastKey k)) = some k ∧
    b64decode "not-base64" = none ∧
    resolveStartKey (some "not-base64") = none := by
  have hbytes := utf8Encode_bytes_lt (jsonDumpKey k) (jsonDumpKey_ascii k hascii)
  have hdec : decodeLastKey (encodeLastKey k) = .ok k := by
    simp only [decodeLastKey, encodeLastKey, b64decode_encode _ hbytes,
      utf8_roundtrip, jsonParseKey_dump k hq]
  refine ⟨hdec, ?_, by decide, by decide⟩
  rw [resolveStartKey, hdec]

/-- Witness for `cursor_roundtrip_and_bad_token`: the concrete resume key
`{'tile_hash': 'abc123'}`. -/
theorem cursor_roundtrip_witness :
    decodeLastKey (encodeLastKey ⟨"abc123"⟩) = .ok ⟨"abc123"⟩ ∧
    resolveStartKey (some "not-base64") = none := by
  have h := cursor_roundtrip_and_bad_token ⟨"abc123"⟩ (by decide) (by decide)
  exact ⟨h.1, h.2.2.2⟩

end Emosaic
